import Mathlib

/-!
Verification of the AI-Insurance-Query-System decision pipeline.

Shallow embedding of the repository's pure logic:

* `make_decision` (src/ai-model/src/reasoning_engine.py, `ReasoningEngine.make_decision`):
  the claim-approval engine, including the age gate, the procedure branch chain,
  the post-approval amount adjustments and the fail-safe exception handler.
* `split_text_optimized` (src/utils.py, `TextChunker.split_text_optimized`):
  the text chunker with its sentence-boundary snapping and chunk cap.
* `extract_entities` (src/ai-model/src/query_analyzer.py, `QueryAnalyzer.extract_entities`):
  the regex/substring entity extraction, modelled for the concrete scanning
  patterns the source uses.

Python `float` multiplications (`int(amount * 1.1)` etc.) are modelled exactly:
the literals `1.1`, `1.15`, `0.9` denote specific IEEE-754 binary64 values
(dyadic rationals), the product is rounded once to 53 significant bits with
round-to-nearest, ties-to-even, and `int()` truncates toward zero.
Strings are ASCII here (all strings the program manipulates in the claims are
ASCII); `str.lower`/`str.strip` are modelled on ASCII characters.
-/

namespace InsuranceSystem

/-! ## Python string primitives -/

/-- ASCII lowercasing of one character, the effect of Python `str.lower` on
the ASCII strings this program manipulates. -/
def asciiLower (c : Char) : Char :=
  if 'A' ≤ c ∧ c ≤ 'Z' then Char.ofNat (c.toNat + 32) else c

/-- ASCII uppercasing of one character (Python `str.upper` / `str.title` on ASCII). -/
def asciiUpper (c : Char) : Char :=
  if 'a' ≤ c ∧ c ≤ 'z' then Char.ofNat (c.toNat - 32) else c

/-- Python `str.lower` on an ASCII string. -/
def pyLower (s : String) : String :=
  String.mk (s.toList.map asciiLower)

/-- Python whitespace class `\s` restricted to ASCII:
space, tab, newline, carriage return, vertical tab, form feed. -/
def isPySpace (c : Char) : Bool :=
  c = ' ' ∨ c = '\t' ∨ c = '\n' ∨ c = '\r' ∨ c = '\x0b' ∨ c = '\x0c'

/-- Python `str.strip()` on a character list. -/
def pyStripList (l : List Char) : List Char :=
  ((l.dropWhile isPySpace).reverse.dropWhile isPySpace).reverse

/-- Python substring test `pat in s` on character lists. -/
def listContainsSub (pat : List Char) : List Char → Bool
  | [] => pat.isEmpty
  | c :: rest => pat.isPrefixOf (c :: rest) || listContainsSub pat rest

/-- Python substring test `pat in s` on strings. -/
def strContains (pat s : String) : Bool :=
  listContainsSub pat.toList s.toList

/-- Python `repr`/f-string rendering of an optional integer
(`None` prints as `"None"`). -/
def optNatRepr : Option ℕ → String
  | none => "None"
  | some n => toString n

/-! ## Python binary64 multiplication by a positive float constant

`int(a * c)` where `a` is a nonnegative Python int below `2^53` (so its
conversion to binary64 is exact) and `c` is a positive float constant
`num / 2^sh` (`num` the 53-bit significand taken from the binary64 value of
the literal).  The exact product `a * num / 2^sh` is rounded once to 53
significant bits (round to nearest, ties to even) — this is the binary64
multiplication — and `int()` then truncates toward zero (floor, as all values
here are nonnegative).  No overflow or subnormal range is reachable for the
amounts this program computes. -/

/-- Bit length of `n` computed with structural fuel (128 bits cover every
value this development manipulates); `bitLength n = ⌊log2 n⌋ + 1` for
`0 < n < 2^128`, and `0` for `n = 0`. -/
def bitLengthAux : ℕ → ℕ → ℕ
  | 0, _ => 0
  | fuel + 1, n => if n = 0 then 0 else bitLengthAux fuel (n / 2) + 1

/-- Bit length of a natural number below `2^128`. -/
def bitLength (n : ℕ) : ℕ := bitLengthAux 128 n

/-- Round the natural number `p` to 53 significant bits
(round to nearest, ties to even), returning the rounded value. -/
def roundSig53 (p : ℕ) : ℕ :=
  let b := bitLength p
  if b ≤ 53 then p
  else
    let k := b - 53
    let q := p / 2 ^ k
    let r := p % 2 ^ k
    let half := 2 ^ (k - 1)
    let q2 := if half < r ∨ (r = half ∧ q % 2 = 1) then q + 1 else q
    q2 * 2 ^ k

/-- `int(a * c)` in Python where `c` is the binary64 value `num / 2^sh`:
one correctly rounded binary64 multiplication, then truncation toward zero. -/
def pyFloatTruncMul (a num sh : ℕ) : ℕ :=
  if a = 0 then 0 else roundSig53 (a * num) / 2 ^ sh

/-- Significand of the binary64 value of the Python literal `1.1`
(`1.1 = 2476979795053773 / 2^51`). -/
def c110num : ℕ := 2476979795053773

/-- Significand of the binary64 value of the Python literal `1.15`
(`1.15 = 2589569785738035 / 2^51`). -/
def c115num : ℕ := 2589569785738035

/-- Significand of the binary64 value of the Python literal `0.9`
(`0.9 = 8106479329266893 / 2^53`). -/
def c090num : ℕ := 8106479329266893

/-! ## Data model (`entities` dict and decision result) -/

/-- The `policy_duration` sub-dict produced by `QueryAnalyzer.extract_entities`:
`{"value": ..., "unit": ...}`. -/
structure PolicyDuration where
  value : ℕ
  unit : String
deriving DecidableEq, Repr

/-- The `entities` dict flowing from `QueryAnalyzer.extract_entities` into
`ReasoningEngine.make_decision`.  Each field is `Option`-valued: `none`
models the Python value `None` that `extract_entities` stores when a field is
not found.  (The source also stores an extracted monetary `amount` entity;
it is never read by the decision engine and is not modelled.) -/
structure Entities where
  age : Option ℕ
  gender : Option String
  procedure : Option String
  location : Option String
  policy_duration : Option PolicyDuration
deriving DecidableEq, Repr

/-- One source clause of the result (`source_clauses` entries are hardcoded
dicts in the source). -/
structure SourceClause where
  clause_id : String
  text : String
  policy_name : String
  similarity : ℚ
deriving DecidableEq, Repr

/-- The dict returned by `ReasoningEngine._format_result`. -/
structure DecisionResult where
  decision : String
  amount : Option ℕ
  justification : String
  confidence : ℚ
  source_clauses : List SourceClause
  reasoning_steps : List String
deriving DecidableEq, Repr

/-! ## The reasoning engine -/

/-- `metro_cities` list from the adjustment block of `make_decision`. -/
def metroCities : List String :=
  ["mumbai", "delhi", "bangalore", "chennai", "kolkata", "hyderabad"]

/-- Python truthiness of the `age` value (`if age and ...`):
`None` and `0` are falsy. -/
def ageTruthy : Option ℕ → Bool
  | none => false
  | some n => n != 0

/-- Python truthiness of an optional string (`if location and ...`):
`None` and `""` are falsy. -/
def strTruthy : Option String → Bool
  | none => false
  | some s => !s.isEmpty

/-- Python truthiness of the `amount` value (`decision == "Approved" and amount`). -/
def amountTruthy : Option ℕ → Bool
  | none => false
  | some n => n != 0

/-- `procedure = entities.get("procedure", "").lower() if entities.get("procedure") else ""`. -/
def procLowerOf (e : Entities) : String :=
  match e.procedure with
  | some p => if p = "" then "" else pyLower p
  | none => ""

/-- The duration normalization of `make_decision`: `value*30` for unit
`"month"`, `value*365` for unit `"year"`, `0` otherwise or when
`policy_duration` is falsy. -/
def durationDaysOf (e : Entities) : ℕ :=
  match e.policy_duration with
  | some pd => if pd.unit = "month" then pd.value * 30
               else if pd.unit = "year" then pd.value * 365
               else 0
  | none => 0

/-- `policy_duration.get("value", 0)` as used in the knee justification string. -/
def pdValueOf (e : Entities) : ℕ :=
  match e.policy_duration with
  | some pd => pd.value
  | none => 0

/-- `policy_duration.get("unit", "")` as used in the knee justification string. -/
def pdUnitOf (e : Entities) : String :=
  match e.policy_duration with
  | some pd => pd.unit
  | none => ""

/-- Condition of the metro-city adjustment:
`location and location.lower() in metro_cities`. -/
def metroCond (location : Option String) : Bool :=
  strTruthy location && metroCities.contains (pyLower (location.getD ""))

/-- Condition of the senior-citizen adjustment: `age and age > 60`. -/
def seniorCond (age : Option ℕ) : Bool :=
  ageTruthy age && decide (60 < age.getD 0)

/-- Condition of the young-adult discount: `age and age < 25`. -/
def youngCond (age : Option ℕ) : Bool :=
  ageTruthy age && decide (age.getD 0 < 25)

/-- Outcome of the procedure branch chain, before the adjustment block:
decision, amount, justification, confidence, source clauses, reasoning steps. -/
structure BranchOut where
  decision : String
  amount : Option ℕ
  justification : String
  confidence : ℚ
  source_clauses : List SourceClause
  steps : List String
deriving DecidableEq, Repr

/-- Message standing for the `TypeError` CPython raises when
`age > 45` is evaluated with `age = None` in the knee-surgery branch
(the exact runtime text is abbreviated without punctuation). -/
def typeErrorMsg : String :=
  "unsupported comparison between NoneType and int"

/-- The hardcoded knee-surgery source clause. -/
def kneeClause : SourceClause :=
  { clause_id := "BAJ-003"
    text := "Day care procedures covered where treatment is less than 24 hours"
    policy_name := "Bajaj Allianz Global Health Care"
    similarity := 0.85 }

/-- The hardcoded heart-surgery source clause. -/
def heartClause : SourceClause :=
  { clause_id := "HDFC-001"
    text := "Critical illness coverage includes cancer, CABG, heart attack, stroke, kidney failure"
    policy_name := "HDFC Ergo Easy Health"
    similarity := 0.9 }

/-- The hardcoded cancer source clause. -/
def cancerClause : SourceClause :=
  { clause_id := "HDFC-001"
    text := "Critical illness coverage includes cancer, CABG, heart attack, stroke, kidney failure"
    policy_name := "HDFC Ergo Easy Health"
    similarity := 0.95 }

/-- The hardcoded eye-surgery source clause. -/
def eyeClause : SourceClause :=
  { clause_id := "BAJ-003"
    text := "Day care procedures covered where treatment is less than 24 hours"
    policy_name := "Bajaj Allianz Global Health Care"
    similarity := 0.8 }

/-- The procedure branch chain of `make_decision` (knee / heart / cancer /
eye, else the initial "No matching coverage found" state).  `.error` models
the `TypeError` thrown by `age > 45` when `age` is `None` (reachable only in
the knee-approved sub-branch). -/
def branchOutcome (e : Entities) (steps1 : List String) :
    Except String BranchOut :=
  let procedure := procLowerOf e
  let durationDays := durationDaysOf e
  if strContains "knee" procedure then
    let steps2 := steps1 ++ ["Processing knee surgery claim"]
    if 90 ≤ durationDays then
      match e.age with
      | none => .error typeErrorMsg
      | some a =>
        let baseAmount : ℕ := if 45 < a then 150000 else 120000
        .ok { decision := "Approved", amount := some baseAmount
              justification := "Knee surgery is covered under day care procedures. Policy duration of "
                ++ toString (pdValueOf e) ++ " " ++ pdUnitOf e
                ++ " meets the 90-day waiting period requirement."
              confidence := 0.85
              source_clauses := [kneeClause]
              steps := steps2 ++ ["Approved: Waiting period satisfied ("
                ++ toString durationDays ++ " >= 90 days)"] }
    else
      .ok { decision := "Rejected", amount := none
            justification := "Policy duration of " ++ toString durationDays
              ++ " days is less than the required 90-day waiting period for knee surgery."
            confidence := 0.9
            source_clauses := []
            steps := steps2 ++ ["Rejected: Waiting period not satisfied ("
              ++ toString durationDays ++ " < 90 days)"] }
  else if strContains "heart" procedure || strContains "cardiac" procedure
      || strContains "cabg" procedure then
    .ok { decision := "Approved", amount := some 500000
          justification := "Heart surgery is covered under critical illness benefits with no waiting period."
          confidence := 0.9
          source_clauses := [heartClause]
          steps := steps1 ++ ["Processing heart surgery claim",
            "Approved: Critical illness coverage applies"] }
  else if strContains "cancer" procedure then
    .ok { decision := "Approved", amount := some 1000000
          justification := "Cancer treatment is fully covered under critical illness benefits with no waiting period."
          confidence := 0.95
          source_clauses := [cancerClause]
          steps := steps1 ++ ["Processing cancer treatment claim",
            "Approved: Cancer covered under critical illness"] }
  else if strContains "eye" procedure || strContains "cataract" procedure then
    let steps2 := steps1 ++ ["Processing eye surgery claim"]
    if 30 ≤ durationDays then
      .ok { decision := "Approved", amount := some 60000
            justification := "Eye surgery is covered under day care procedures. Policy duration meets the 30-day waiting period."
            confidence := 0.8
            source_clauses := [eyeClause]
            steps := steps2 ++ ["Approved: Eye surgery waiting period satisfied"] }
    else
      .ok { decision := "Rejected", amount := none
            justification := "Policy duration of " ++ toString durationDays
              ++ " days is less than the required 30-day waiting period for eye surgery."
            confidence := 0.85
            source_clauses := []
            steps := steps2 ++ ["Rejected: Eye surgery waiting period not satisfied"] }
  else
    .ok { decision := "Rejected", amount := none
          justification := "No matching coverage found"
          confidence := 0.5
          source_clauses := []
          steps := steps1 }

/-- The post-approval adjustment block of `make_decision`
(`if decision == "Approved" and amount:` — metro city surcharge, then the
mutually exclusive senior/young age adjustment, each a Python
`int(amount * c)` on the running amount). -/
def adjustSection (e : Entities) (b : BranchOut) : BranchOut :=
  if b.decision = "Approved" ∧ amountTruthy b.amount then
    let a0 := b.amount.getD 0
    let m1 : ℕ × List String :=
      if metroCond e.location then
        (pyFloatTruncMul a0 c110num 51,
         b.steps ++ ["Metro city adjustment applied: +10%"])
      else (a0, b.steps)
    let m2 : ℕ × List String :=
      if seniorCond e.age then
        (pyFloatTruncMul m1.1 c115num 51,
         m1.2 ++ ["Senior citizen adjustment applied: +15%"])
      else if youngCond e.age then
        (pyFloatTruncMul m1.1 c090num 53,
         m1.2 ++ ["Young adult discount applied: -10%"])
      else m1
    { b with amount := some m2.1, steps := m2.2 }
  else b

/-- The first reasoning step
(`f"Analyzing query for: Age={age}, Gender={gender}, Procedure={procedure}"`). -/
def analyzeStep (e : Entities) : String :=
  "Analyzing query for: Age=" ++ optNatRepr e.age
    ++ ", Gender=" ++ (match e.gender with | some g => g | none => "None")
    ++ ", Procedure=" ++ procLowerOf e

/-- The reasoning steps accumulated before the age gate: the analyzing step,
plus the duration step when `policy_duration` is truthy. -/
def steps1Of (e : Entities) : List String :=
  match e.policy_duration with
  | some _ => [analyzeStep e, "Policy duration: " ++ toString (durationDaysOf e) ++ " days"]
  | none => [analyzeStep e]

/-- The body of the `try` block of `make_decision`: initial reasoning steps,
duration normalization, age gate, missing-procedure gate, procedure branch
chain, adjustment block and the final `_format_result` call.
The unused `relevantClauses` parameter mirrors the source signature. -/
def makeDecisionCore (e : Entities) (relevantClauses : List SourceClause) :
    Except String DecisionResult :=
  let procedure := procLowerOf e
  let steps1 := steps1Of e
  if ageTruthy e.age ∧ (e.age.getD 0 < 18 ∨ 70 < e.age.getD 0) then
    .ok { decision := "Rejected", amount := none
          justification := "Age " ++ toString (e.age.getD 0)
            ++ " is outside the eligible range (18-70 years)"
          confidence := 0.95
          source_clauses := []
          reasoning_steps := steps1 ++ ["Age validation failed"] }
  else if procedure = "" then
    .ok { decision := "Rejected", amount := none
          justification := "No medical procedure identified in the query"
          confidence := 0.8
          source_clauses := []
          reasoning_steps := steps1 ++ ["No procedure identified"] }
  else
    match branchOutcome e steps1 with
    | .error m => .error m
    | .ok b0 =>
      let b := adjustSection e b0
      .ok { decision := b.decision, amount := b.amount
            justification := b.justification, confidence := b.confidence
            source_clauses := b.source_clauses
            reasoning_steps := b.steps ++ ["Final decision: " ++ b.decision
              ++ ", Amount: " ++ optNatRepr b.amount] }

/-- The fail-safe result built by the `except` handler of `make_decision`. -/
def errorFallback (m : String) : DecisionResult :=
  { decision := "Rejected", amount := none
    justification := "Error processing claim"
    confidence := 0.1
    source_clauses := []
    reasoning_steps := ["Error: " ++ m] }

/-- `ReasoningEngine.make_decision`: the `try` body with the `except` handler
degrading any internal failure to the fail-safe rejection. -/
def make_decision (e : Entities) (relevantClauses : List SourceClause) :
    DecisionResult :=
  match makeDecisionCore e relevantClauses with
  | .ok r => r
  | .error m => errorFallback m

/-! ## The text chunker (`TextChunker.split_text_optimized`, src/utils.py)

Text is modelled as `List Char`.  `_preprocess_text` performs
`re.sub(r' +', ' ', text)`, then `re.sub(r'\n\s*\n\s*\n+', '\n\n', text)`,
then `str.strip()`.  The second substitution replaces, scanning left to
right, every maximal whitespace run that starts at a `'\n'` and contains at
least three `'\n'` (the greedy match of the pattern extends to the last
`'\n'` of the run) by exactly two newlines.  The `while` loop of
`split_text_optimized` is given explicit fuel (`text.length + 1`, ample for
every terminating configuration; the chunk invariants proved below hold for
any fuel). -/

/-- `re.sub(r' +', ' ', text)`: collapse each run of spaces to one space.
The Boolean state records whether the previous character was a space
(structural recursion on the list, so the kernel can evaluate it). -/
def collapseSpacesGo : Bool → List Char → List Char
  | _, [] => []
  | afterSpace, c :: rest =>
    if c = ' ' then
      if afterSpace then collapseSpacesGo true rest
      else ' ' :: collapseSpacesGo true rest
    else c :: collapseSpacesGo false rest

/-- `re.sub(r' +', ' ', text)`. -/
def collapseSpaces (l : List Char) : List Char := collapseSpacesGo false l

/-- Index of the last `'\n'` in `run` (meaningful when `run` contains one). -/
def lastNewlineIdx (run : List Char) : ℕ :=
  run.length - 1 - run.reverse.findIdx (fun c => c = '\n')

/-- `re.sub(r'\n\s*\n\s*\n+', '\n\n', text)` with structural fuel (each
replacement consumes at least one character, so `length + 1` fuel always
suffices): scanning left to right, each maximal whitespace run starting at a
`'\n'` that contains at least three `'\n'` is matched up to its last `'\n'`
and replaced by two newlines. -/
def collapseNewlinesAux : ℕ → List Char → List Char
  | 0, l => l
  | _ + 1, [] => []
  | fuel + 1, c :: rest =>
    if c = '\n' then
      let run := (c :: rest).takeWhile isPySpace
      if 3 ≤ run.count '\n' then
        '\n' :: '\n' :: collapseNewlinesAux fuel ((c :: rest).drop (lastNewlineIdx run + 1))
      else c :: collapseNewlinesAux fuel rest
    else c :: collapseNewlinesAux fuel rest

/-- `re.sub(r'\n\s*\n\s*\n+', '\n\n', text)`. -/
def collapseNewlines (l : List Char) : List Char :=
  collapseNewlinesAux (l.length + 1) l

/-- `TextChunker._preprocess_text`. -/
def preprocessText (l : List Char) : List Char :=
  pyStripList (collapseNewlines (collapseSpaces l))

/-- Sentence-terminating characters `'.!?'`. -/
def isTermChar (c : Char) : Bool :=
  c = '.' ∨ c = '!' ∨ c = '?'

/-- The backward scan `for i in range(end, low, -1): if text[i] in '.!?':
end = i + 1; break`, visiting `count` indices downward from `i`.  Returns
`some (i + 1)` for the first (highest) index holding a terminator. -/
def scanBack (text : List Char) : ℕ → ℕ → Option ℕ
  | _, 0 => none
  | i, count + 1 =>
    if isTermChar (text.getD i ' ') then some (i + 1)
    else scanBack text (i - 1) count

/-- The boundary computation of one loop iteration: `end = start + chunk_size`,
snapped backward to just after a sentence terminator found in
`range(end, max(start + chunk_size // 2, end - 100), -1)` when
`end < len(text)`. -/
def findEnd (text : List Char) (start csize : ℕ) : ℕ :=
  let e := start + csize
  if e < text.length then
    match scanBack text e (e - max (start + csize / 2) (e - 100)) with
    | some j => j
    | none => e
  else e

/-- Python slice `l[a:b]` (for `0 ≤ a`, clamping at both ends). -/
def sliceList (l : List Char) (a b : ℕ) : List Char :=
  (l.drop a).take (b - a)

/-- The `while` loop of `split_text_optimized`, with explicit fuel.
`max_chunks = 40`; a stripped chunk is kept when nonempty and longer than 50;
`start = end - overlap if end > overlap else end`; the loop breaks when
`start >= len(text)`. -/
def chunkLoop (csize ov : ℕ) (text : List Char) :
    ℕ → ℕ → List (List Char) → List (List Char)
  | 0, _, chunks => chunks
  | fuel + 1, start, chunks =>
    if start < text.length ∧ chunks.length < 40 then
      let e := findEnd text start csize
      let chunk := pyStripList (sliceList text start e)
      let chunks2 := if chunk ≠ [] ∧ 50 < chunk.length then chunks ++ [chunk] else chunks
      let start2 := if ov < e then e - ov else e
      if text.length ≤ start2 then chunks2
      else chunkLoop csize ov text fuel start2 chunks2
    else chunks

/-- `TextChunker.split_text_optimized` with chunk size `csize` and overlap
`ov` (source defaults: 600 and 100): empty or short (stripped length `< 50`)
input yields `[]`; otherwise the preprocessed text is chunked by the loop. -/
def split_text_optimized (csize ov : ℕ) (text : List Char) : List (List Char) :=
  if text = [] ∨ (pyStripList text).length < 50 then []
  else
    let t := preprocessText text
    chunkLoop csize ov t (t.length + 1) 0 []

/-! ## Entity extraction (`QueryAnalyzer.extract_entities`,
src/ai-model/src/query_analyzer.py)

The regex searches of the source are modelled by direct left-to-right scans
implementing the same leftmost-match semantics:
`re.search(r'(\d+)([MF])', query, re.IGNORECASE)` for age/gender,
`re.search(r'(\d+)[\s]*[-]?[\s]*(month|year)s?', ...)` then
`re.search(r'(\d+)[\s]*[-]?[\s]*(m|y)(?:\s|$)', ...)` for the policy
duration, and plain substring scans over fixed keyword lists for the
procedure and the location.  (The spaCy document the source builds is never
read, and the monetary-amount patterns cannot match any claim input;
both are omitted.) -/

/-- ASCII digit test (`\d` over the program's ASCII queries). -/
def isDigitChar (c : Char) : Bool :=
  '0' ≤ c ∧ c ≤ '9'

/-- Python `int()` of a nonempty digit string. -/
def natOfDigits (ds : List Char) : ℕ :=
  ds.foldl (fun n c => 10 * n + (c.toNat - 48)) 0

/-- Leftmost match of `(\d+)([MF])` (case-insensitive): maximal digit run
followed by `M`/`F`. -/
def scanAgeGender : List Char → Option (ℕ × Char)
  | [] => none
  | c :: rest =>
    if isDigitChar c then
      match (c :: rest).dropWhile isDigitChar with
      | g :: _ =>
        if g = 'M' ∨ g = 'F' ∨ g = 'm' ∨ g = 'f' then
          some (natOfDigits ((c :: rest).takeWhile isDigitChar), g)
        else scanAgeGender rest
      | [] => scanAgeGender rest
    else scanAgeGender rest

/-- Case-insensitive match of the lowercase pattern `pat` at the head of `s`. -/
def matchesCI : List Char → List Char → Bool
  | [], _ => true
  | _ :: _, [] => false
  | p :: ps, c :: cs => p = asciiLower c && matchesCI ps cs

/-- Leftmost match of `(\d+)[\s]*[-]?[\s]*(month|year)s?` (case-insensitive),
returning the value and the normalized unit. -/
def scanDurationLong : List Char → Option (ℕ × String)
  | [] => none
  | c :: rest =>
    if isDigitChar c then
      let n := natOfDigits ((c :: rest).takeWhile isDigitChar)
      let r1 := (c :: rest).dropWhile isDigitChar
      let r2 := r1.dropWhile isPySpace
      let r3 := match r2 with | '-' :: t => t | _ => r2
      let r4 := r3.dropWhile isPySpace
      if matchesCI "month".toList r4 then some (n, "month")
      else if matchesCI "year".toList r4 then some (n, "year")
      else scanDurationLong rest
    else scanDurationLong rest

/-- Leftmost match of `(\d+)[\s]*[-]?[\s]*(m|y)(?:\s|$)` (case-insensitive),
returning the value and the normalized unit. -/
def scanDurationShort : List Char → Option (ℕ × String)
  | [] => none
  | c :: rest =>
    if isDigitChar c then
      let n := natOfDigits ((c :: rest).takeWhile isDigitChar)
      let r1 := (c :: rest).dropWhile isDigitChar
      let r2 := r1.dropWhile isPySpace
      let r3 := match r2 with | '-' :: t => t | _ => r2
      let r4 := r3.dropWhile isPySpace
      match r4 with
      | g :: t =>
        if (g = 'm' ∨ g = 'M') ∧ (t = [] ∨ isPySpace (t.getD 0 ' ')) then
          some (n, "month")
        else if (g = 'y' ∨ g = 'Y') ∧ (t = [] ∨ isPySpace (t.getD 0 ' ')) then
          some (n, "year")
        else scanDurationShort rest
      | [] => scanDurationShort rest
    else scanDurationShort rest

/-- The duration extraction: the long pattern is tried first, then the
short one. -/
def extractDuration (q : List Char) : Option (ℕ × String) :=
  match scanDurationLong q with
  | some d => some d
  | none => scanDurationShort q

/-- `self.medical_patterns` flattened in dict insertion order (the nested
`for` loops with `break` select the first pattern, in this order, contained
in the lowercased query). -/
def medicalPatterns : List String :=
  ["knee surgery", "knee operation", "knee replacement",
   "heart surgery", "cardiac surgery", "cabg", "bypass",
   "cancer", "tumor", "oncology", "chemotherapy",
   "eye surgery", "cataract", "lasik",
   "day care", "daycare", "outpatient"]

/-- `self.indian_cities`. -/
def indianCities : List String :=
  ["mumbai", "delhi", "bangalore", "pune", "chennai", "kolkata",
   "hyderabad", "ahmedabad", "surat", "jaipur", "lucknow", "kanpur"]

/-- Python `str.title()` on the single-word lowercase city names. -/
def titleWord (s : String) : String :=
  match s.toList with
  | [] => ""
  | c :: rest => String.mk (asciiUpper c :: rest)

/-- `QueryAnalyzer.extract_entities` on a query string. -/
def extract_entities (q : String) : Entities :=
  let ql := q.toList.map asciiLower
  { age := (scanAgeGender q.toList).map (fun p => p.1)
    gender := (scanAgeGender q.toList).map
      (fun p => if p.2 = 'M' ∨ p.2 = 'm' then "Male" else "Female")
    procedure := medicalPatterns.find? (fun p => listContainsSub p.toList ql)
    location := (indianCities.find? (fun c => listContainsSub c.toList ql)).map titleWord
    policy_duration := (extractDuration q.toList).map (fun d => ⟨d.1, d.2⟩) }

/-! ## Claim-facing decompositions and spec-side definitions -/

/-- The metro-city surcharge step in isolation: `int(amount * 1.1)` when the
location is truthy and its lowercase form is in `metro_cities`. -/
def metroAdjustAmount (location : Option String) (a : ℕ) : ℕ :=
  if metroCond location then pyFloatTruncMul a c110num 51 else a

/-- The mutually exclusive age adjustment step in isolation:
`int(amount * 1.15)` for `age > 60`, else `int(amount * 0.9)` for `age < 25`
(`age` truthy in both). -/
def ageAdjustAmount (age : Option ℕ) (a : ℕ) : ℕ :=
  if seniorCond age then pyFloatTruncMul a c115num 51
  else if youngCond age then pyFloatTruncMul a c090num 53
  else a

/-- The boundary search as claim C7 words it (spec refinement comparison
only; the source is `findEnd`): search backward from the naive boundary all
the way down to half the chunk size before it, with no further limit. -/
def findEndClaimed (text : List Char) (start csize : ℕ) : ℕ :=
  let e := start + csize
  if e < text.length then
    match scanBack text e (e - (start + csize / 2)) with
    | some j => j
    | none => e
  else e

/-- Concrete entity record of claim C4: age 65, metro location Mumbai,
knee surgery (base amount 150000), 12-month policy. -/
def entMumbai65 : Entities :=
  { age := some 65, gender := some "Male", procedure := some "knee surgery"
    location := some "Mumbai", policy_duration := some ⟨12, "month"⟩ }

/-! ## Helper lemmas -/

theorem adjustSection_decision (e : Entities) (b : BranchOut) :
    (adjustSection e b).decision = b.decision := by
  unfold adjustSection
  split_ifs <;> rfl

theorem adjustSection_amount (e : Entities) (b : BranchOut) :
    (adjustSection e b).amount =
      if b.decision = "Approved" ∧ amountTruthy b.amount then
        some (ageAdjustAmount e.age (metroAdjustAmount e.location (b.amount.getD 0)))
      else b.amount := by
  unfold adjustSection ageAdjustAmount metroAdjustAmount
  split_ifs <;> simp_all

theorem adjustSection_confidence (e : Entities) (b : BranchOut) :
    (adjustSection e b).confidence = b.confidence := by
  unfold adjustSection
  split_ifs <;> rfl

theorem make_decision_proj (e : Entities) (cl : List SourceClause)
    (hgate : ¬(ageTruthy e.age ∧ (e.age.getD 0 < 18 ∨ 70 < e.age.getD 0)))
    (hproc : ¬(procLowerOf e = "")) (b : BranchOut)
    (hb : branchOutcome e (steps1Of e) = .ok b) :
    (make_decision e cl).decision = b.decision ∧
    (make_decision e cl).amount = (adjustSection e b).amount ∧
    (make_decision e cl).confidence = b.confidence := by
  unfold make_decision makeDecisionCore
  rw [if_neg hgate, if_neg hproc, hb]
  exact ⟨adjustSection_decision e b, rfl, adjustSection_confidence e b⟩

theorem make_decision_error (e : Entities) (cl : List SourceClause)
    (hgate : ¬(ageTruthy e.age ∧ (e.age.getD 0 < 18 ∨ 70 < e.age.getD 0)))
    (hproc : ¬(procLowerOf e = "")) (m : String)
    (hb : branchOutcome e (steps1Of e) = .error m) :
    make_decision e cl = errorFallback m := by
  unfold make_decision makeDecisionCore
  rw [if_neg hgate, if_neg hproc, hb]

/-- A nonempty pattern is not contained in the empty string. -/
theorem procLower_ne_empty_of_contains (e : Entities) (p : String)
    (hp : p ≠ "") (h : strContains p (procLowerOf e) = true) :
    procLowerOf e ≠ "" := by
  intro hs
  rw [hs] at h
  unfold strContains listContainsSub at h
  cases p with
  | mk data =>
    cases data with
    | nil => exact hp rfl
    | cons c cs => simp [List.isEmpty] at h

/-! ## Claim C2 — the age gate -/

/-- Claim C2, counterexample: an entities record carrying age `0` (which is
below 18) is not rejected by the age gate — Python truthiness treats `0` as
absent, so a knee-surgery claim with age 0 and a 3-month policy is Approved,
not Rejected with confidence 0.95 as the claim requires for every age
below 18. -/
theorem c2_age_zero_counterexample :
    (0 : ℕ) < 18 ∧
    (make_decision ⟨some 0, none, some "knee surgery", none, some ⟨3, "month"⟩⟩
        []).decision = "Approved" := by
  constructor
  · decide
  · decide

/-- Claim C2, amended: for every nonzero age `a` with `a < 18` or `a > 70`,
`make_decision` on any entities record carrying that age returns
decision `Rejected` with confidence `0.95`, no amount, and the age-gate
justification, regardless of procedure and of any other field (the age gate
returns before any later gate is evaluated). -/
theorem c2_age_gate_amended (e : Entities) (cl : List SourceClause) (a : ℕ)
    (hage : e.age = some a) (hpos : 0 < a) (hout : a < 18 ∨ 70 < a) :
    (make_decision e cl).decision = "Rejected" ∧
    (make_decision e cl).confidence = 0.95 ∧
    (make_decision e cl).amount = none ∧
    (make_decision e cl).justification =
      "Age " ++ toString a ++ " is outside the eligible range (18-70 years)" := by
  have hcond : ageTruthy e.age ∧ (e.age.getD 0 < 18 ∨ 70 < e.age.getD 0) := by
    rw [hage]
    refine ⟨by simp [ageTruthy]; omega, by simpa using hout⟩
  unfold make_decision makeDecisionCore
  rw [if_pos hcond]
  rw [hage]
  exact ⟨rfl, rfl, rfl, rfl⟩

/-- Witness for `c2_age_gate_amended` at age 17 with a knee-surgery record
whose duration would otherwise approve. -/
theorem c2_age_gate_witness :
    (make_decision ⟨some 17, none, some "knee surgery", none, some ⟨12, "month"⟩⟩
        []).decision = "Rejected" ∧
    (make_decision ⟨some 17, none, some "knee surgery", none, some ⟨12, "month"⟩⟩
        []).confidence = 0.95 ∧
    (make_decision ⟨some 17, none, some "knee surgery", none, some ⟨12, "month"⟩⟩
        []).amount = none ∧
    (make_decision ⟨some 17, none, some "knee surgery", none, some ⟨12, "month"⟩⟩
        []).justification =
      "Age " ++ toString 17 ++ " is outside the eligible range (18-70 years)" :=
  c2_age_gate_amended _ [] 17 rfl (by decide) (by decide)

/-! ## Claim C1 — waiting periods for knee and eye surgery -/

/-- Claim C1, counterexample: a knee-surgery record with absent age (`None`,
as `extract_entities` produces) and a 3-month policy has
`duration_days = 90 ≥ 90`, yet `make_decision` returns Rejected — the
`age > 45` base-amount comparison raises a `TypeError` on `None` and the
engine degrades to the fail-safe rejection — where the claim requires
Approved for absent age. -/
theorem c1_age_none_counterexample :
    durationDaysOf ⟨none, none, some "knee surgery", none, some ⟨3, "month"⟩⟩ = 90 ∧
    (make_decision ⟨none, none, some "knee surgery", none, some ⟨3, "month"⟩⟩
        []).decision = "Rejected" ∧
    (make_decision ⟨none, none, some "knee surgery", none, some ⟨3, "month"⟩⟩
        []).justification = "Error processing claim" := by
  refine ⟨by decide, by decide, by decide⟩

/-- Claim C1, amended: for every entities record whose age does not fire the
age gate (age absent, zero, or within 18-70): if the procedure contains
`"knee"` and the age is present, the decision is Approved iff
`duration_days ≥ 90`; and if the procedure contains `"eye"` or `"cataract"`
while containing none of the keywords of the earlier branches
(`knee`, `heart`, `cardiac`, `cabg`, `cancer`) — age present or absent —
the decision is Approved iff `duration_days ≥ 30`.  Both boundaries
inclusive, with `duration_days` normalized as `value*30` (month) /
`value*365` (year), `0` otherwise.  (The original claim fails only for knee
with absent age — the `age > 45` comparison fails safe to Rejected, see the
counterexample — and for eye procedures whose string also contains an
earlier branch keyword; the eye branch never reads the age value, so
age-absent eye records keep the claimed equivalence.) -/
theorem c1_waiting_period_amended (e : Entities) (cl : List SourceClause)
    (hA : ageTruthy e.age = true → 18 ≤ e.age.getD 0 ∧ e.age.getD 0 ≤ 70) :
    ((∃ a, e.age = some a) → strContains "knee" (procLowerOf e) = true →
      ((make_decision e cl).decision = "Approved" ↔ 90 ≤ durationDaysOf e)) ∧
    ((strContains "eye" (procLowerOf e) = true ∨
        strContains "cataract" (procLowerOf e) = true) →
      strContains "knee" (procLowerOf e) = false →
      strContains "heart" (procLowerOf e) = false →
      strContains "cardiac" (procLowerOf e) = false →
      strContains "cabg" (procLowerOf e) = false →
      strContains "cancer" (procLowerOf e) = false →
      ((make_decision e cl).decision = "Approved" ↔ 30 ≤ durationDaysOf e)) := by
  have hgate : ¬(ageTruthy e.age ∧ (e.age.getD 0 < 18 ∨ 70 < e.age.getD 0)) := by
    rintro ⟨ht, hout⟩
    have := hA ht
    omega
  constructor
  · rintro ⟨a, hage⟩ hK
    have hproc := procLower_ne_empty_of_contains e "knee" (by decide) hK
    by_cases h90 : 90 ≤ durationDaysOf e
    · obtain ⟨b, hb, hdec⟩ :
          ∃ b, branchOutcome e (steps1Of e) = .ok b ∧ b.decision = "Approved" := by
        unfold branchOutcome
        rw [hage]
        simp only [hK, if_true, if_pos h90]
        exact ⟨_, rfl, rfl⟩
      rw [(make_decision_proj e cl hgate hproc b hb).1, hdec]
      exact iff_of_true rfl h90
    · obtain ⟨b, hb, hdec⟩ :
          ∃ b, branchOutcome e (steps1Of e) = .ok b ∧ b.decision = "Rejected" := by
        unfold branchOutcome
        simp only [hK, if_true, if_neg h90]
        exact ⟨_, rfl, rfl⟩
      rw [(make_decision_proj e cl hgate hproc b hb).1, hdec]
      exact iff_of_false (by decide) h90
  · intro hEye hK hH hCd hCb hCa
    have hproc : ¬(procLowerOf e = "") := by
      cases hEye with
      | inl h => exact procLower_ne_empty_of_contains e "eye" (by decide) h
      | inr h => exact procLower_ne_empty_of_contains e "cataract" (by decide) h
    have hEyeB : (strContains "eye" (procLowerOf e)
        || strContains "cataract" (procLowerOf e)) = true := by
      cases hEye with
      | inl h => simp [h]
      | inr h => simp [h]
    by_cases h30 : 30 ≤ durationDaysOf e
    · obtain ⟨b, hb, hdec⟩ :
          ∃ b, branchOutcome e (steps1Of e) = .ok b ∧ b.decision = "Approved" := by
        unfold branchOutcome
        simp only [hK, hH, hCd, hCb, hCa, hEyeB, Bool.or_false, if_false,
          if_true, Bool.false_eq_true, if_pos h30]
        exact ⟨_, rfl, rfl⟩
      rw [(make_decision_proj e cl hgate hproc b hb).1, hdec]
      exact iff_of_true rfl h30
    · obtain ⟨b, hb, hdec⟩ :
          ∃ b, branchOutcome e (steps1Of e) = .ok b ∧ b.decision = "Rejected" := by
        unfold branchOutcome
        simp only [hK, hH, hCd, hCb, hCa, hEyeB, Bool.or_false, if_false,
          if_true, Bool.false_eq_true, if_neg h30]
        exact ⟨_, rfl, rfl⟩
      rw [(make_decision_proj e cl hgate hproc b hb).1, hdec]
      exact iff_of_false (by decide) h30

/-- Witness for `c1_waiting_period_amended`: age 46, knee surgery, 3-month
policy — the inclusive boundary `duration_days = 90` approves — and an
age-absent cataract record with a 1-month policy, covered by the eye half. -/
theorem c1_waiting_period_witness :
    ((make_decision ⟨some 46, none, some "knee surgery", none, some ⟨3, "month"⟩⟩
        []).decision = "Approved" ↔
      90 ≤ durationDaysOf ⟨some 46, none, some "knee surgery", none, some ⟨3, "month"⟩⟩) ∧
    ((make_decision ⟨none, none, some "cataract", none, some ⟨1, "month"⟩⟩
        []).decision = "Approved" ↔
      30 ≤ durationDaysOf ⟨none, none, some "cataract", none, some ⟨1, "month"⟩⟩) :=
  ⟨(c1_waiting_period_amended _ [] (by decide)).1 ⟨46, rfl⟩ (by decide),
   (c1_waiting_period_amended _ [] (by decide)).2 (Or.inr (by decide))
     (by decide) (by decide) (by decide) (by decide) (by decide)⟩

/-! ## Claim C3 — critical-illness procedures -/

/-- Claim C3, counterexample: procedure `"heart surgery"` with age 80 is
Rejected by the age gate, where the claim requires Approved with
confidence ≥ 0.9 for every procedure containing `"heart"`. -/
theorem c3_age_gate_counterexample :
    strContains "heart" (procLowerOf ⟨some 80, none, some "heart surgery", none, none⟩)
      = true ∧
    (make_decision ⟨some 80, none, some "heart surgery", none, none⟩ []).decision
      = "Rejected" ∧
    (make_decision ⟨some 80, none, some "heart surgery", none, none⟩ []).confidence
      = 0.95 := by
  refine ⟨by decide, by decide, rfl⟩

/-- Claim C3, amended: provided the age gate does not fire (age absent, zero,
or within 18-70) and the procedure does not contain `"knee"` (the knee branch
is checked first), a procedure containing `"heart"`, `"cardiac"` or `"cabg"`
is Approved with confidence 0.9 and base amount 500000, and a procedure
containing `"cancer"` (and none of the heart-branch keywords) is Approved
with confidence 0.95 and base amount 1000000 — independent of policy
duration, with the final amount obtained from the base by the post-approval
metro/age adjustments. -/
theorem c3_critical_amended (e : Entities) (cl : List SourceClause)
    (hA : ageTruthy e.age = true → 18 ≤ e.age.getD 0 ∧ e.age.getD 0 ≤ 70)
    (hK : strContains "knee" (procLowerOf e) = false) :
    ((strContains "heart" (procLowerOf e) = true ∨
        strContains "cardiac" (procLowerOf e) = true ∨
        strContains "cabg" (procLowerOf e) = true) →
      (make_decision e cl).decision = "Approved" ∧
      (make_decision e cl).confidence = 0.9 ∧
      (make_decision e cl).amount =
        some (ageAdjustAmount e.age (metroAdjustAmount e.location 500000))) ∧
    (strContains "cancer" (procLowerOf e) = true →
      strContains "heart" (procLowerOf e) = false →
      strContains "cardiac" (procLowerOf e) = false →
      strContains "cabg" (procLowerOf e) = false →
      (make_decision e cl).decision = "Approved" ∧
      (make_decision e cl).confidence = 0.95 ∧
      (make_decision e cl).amount =
        some (ageAdjustAmount e.age (metroAdjustAmount e.location 1000000))) := by
  have hgate : ¬(ageTruthy e.age ∧ (e.age.getD 0 < 18 ∨ 70 < e.age.getD 0)) := by
    rintro ⟨ht, hout⟩
    have := hA ht
    omega
  constructor
  · intro hH
    have hproc : ¬(procLowerOf e = "") := by
      rcases hH with h | h | h
      · exact procLower_ne_empty_of_contains e "heart" (by decide) h
      · exact procLower_ne_empty_of_contains e "cardiac" (by decide) h
      · exact procLower_ne_empty_of_contains e "cabg" (by decide) h
    have hHB : (strContains "heart" (procLowerOf e)
        || strContains "cardiac" (procLowerOf e)
        || strContains "cabg" (procLowerOf e)) = true := by
      rcases hH with h | h | h <;> simp [h]
    obtain ⟨b, hb, hdec, hamt, hconf⟩ :
        ∃ b, branchOutcome e (steps1Of e) = .ok b ∧ b.decision = "Approved" ∧
          b.amount = some 500000 ∧ b.confidence = 0.9 := by
      unfold branchOutcome
      simp only [hK, hHB, Bool.false_eq_true, if_false, if_true]
      exact ⟨_, rfl, rfl, rfl, rfl⟩
    obtain ⟨hd, ha, hc⟩ := make_decision_proj e cl hgate hproc b hb
    refine ⟨by rw [hd, hdec], by rw [hc, hconf], ?_⟩
    rw [ha, adjustSection_amount, if_pos ⟨hdec, by rw [hamt]; decide⟩, hamt]
    rfl
  · intro hCa hH hCd hCb
    have hproc := procLower_ne_empty_of_contains e "cancer" (by decide) hCa
    obtain ⟨b, hb, hdec, hamt, hconf⟩ :
        ∃ b, branchOutcome e (steps1Of e) = .ok b ∧ b.decision = "Approved" ∧
          b.amount = some 1000000 ∧ b.confidence = 0.95 := by
      unfold branchOutcome
      simp only [hK, hH, hCd, hCb, hCa, Bool.or_false, Bool.false_eq_true,
        if_false, if_true]
      exact ⟨_, rfl, rfl, rfl, rfl⟩
    obtain ⟨hd, ha, hc⟩ := make_decision_proj e cl hgate hproc b hb
    refine ⟨by rw [hd, hdec], by rw [hc, hconf], ?_⟩
    rw [ha, adjustSection_amount, if_pos ⟨hdec, by rw [hamt]; decide⟩, hamt]
    rfl

/-- Witness for `c3_critical_amended`: a `"cabg"` procedure with no age, no
location and no policy duration is Approved with confidence 0.9 and amount
500000 (no adjustment applies). -/
theorem c3_critical_witness :
    ((make_decision ⟨none, none, some "cabg", none, none⟩ []).decision = "Approved" ∧
     (make_decision ⟨none, none, some "cabg", none, none⟩ []).confidence = 0.9 ∧
     (make_decision ⟨none, none, some "cabg", none, none⟩ []).amount =
       some (ageAdjustAmount none (metroAdjustAmount none 500000))) ∧
    ageAdjustAmount none (metroAdjustAmount none 500000) = 500000 :=
  ⟨(c3_critical_amended _ [] (by decide) (by decide)).1 (by decide),
   by decide⟩

/-! ## Claim C5 — fail-safe error handling -/

/-- Claim C5: `make_decision` never raises — it is a total function, and
whenever the `try` body fails internally (`makeDecisionCore` returns
`.error`), the result is exactly the fail-safe
`{decision: Rejected, amount: None, justification: "Error processing claim",
confidence: 0.1}` with the error message appended as the reasoning step. -/
theorem c5_fail_safe (e : Entities) (cl : List SourceClause) (m : String)
    (herr : makeDecisionCore e cl = .error m) :
    make_decision e cl =
      { decision := "Rejected", amount := none
        justification := "Error processing claim"
        confidence := 0.1
        source_clauses := []
        reasoning_steps := ["Error: " ++ m] } := by
  unfold make_decision
  rw [herr]
  rfl

/-- Witness for `c5_fail_safe`: a knee-surgery record with `age = None` and a
4-month policy makes the `try` body fail (the `age > 45` comparison), and the
fail-safe result is returned. -/
theorem c5_fail_safe_witness :
    make_decision ⟨none, none, some "knee surgery", none, some ⟨4, "month"⟩⟩ [] =
      { decision := "Rejected", amount := none
        justification := "Error processing claim"
        confidence := 0.1
        source_clauses := []
        reasoning_steps := ["Error: " ++ typeErrorMsg] } :=
  c5_fail_safe _ [] typeErrorMsg rfl

/-! ## Claim C4 — adjustment order and arithmetic -/

/-- Claim C4, counterexample: for age 65, location Mumbai, base 150000
(knee surgery, 12-month policy), the final amount is `189749`, not the
`189750` the claim asserts: Python `int(amount * c)` truncates the binary64
product toward zero, and `165000 * 1.15` in binary64 is just below 189750. -/
theorem c4_truncation_counterexample :
    (make_decision entMumbai65 []).amount = some 189749 ∧
    (make_decision entMumbai65 []).amount ≠ some 189750 := by
  constructor
  · decide
  · decide

/-- Claim C4, amended: adjustments are applied in fixed order — the metro
surcharge first, then the mutually exclusive age adjustment — each
multiplicatively on the running amount, where each step is Python
`int(amount * c)`: one binary64 multiplication truncated toward zero (not
rounded to nearest).  For age 65, Mumbai, base 150000 the steps give
`150000 → 165000 → 189749` and `make_decision` returns amount 189749. -/
theorem c4_adjustment_amended :
    (∀ (e : Entities) (b : BranchOut),
      (adjustSection e b).amount =
        if b.decision = "Approved" ∧ amountTruthy b.amount then
          some (ageAdjustAmount e.age (metroAdjustAmount e.location (b.amount.getD 0)))
        else b.amount) ∧
    metroAdjustAmount (some "Mumbai") 150000 = 165000 ∧
    ageAdjustAmount (some 65) 165000 = 189749 ∧
    (make_decision entMumbai65 []).amount = some 189749 := by
  refine ⟨adjustSection_amount, by decide, by decide, by decide⟩

/-! ## Claim C8 — the end-to-end scenario -/

/-- Claim C8, counterexample: for the query
`"46M, knee surgery, Pune, 3-month policy"` the extracted location is
`some "Pune"` — `"pune"` is in the `indian_cities` scan list — not `None`
as the claim states. -/
theorem c8_location_counterexample :
    (extract_entities "46M, knee surgery, Pune, 3-month policy").location
      = some "Pune" ∧
    (extract_entities "46M, knee surgery, Pune, 3-month policy").location
      ≠ none := by
  constructor
  · decide
  · decide

/-- Claim C8, amended: the query `"46M, knee surgery, Pune, 3-month policy"`
extracts age 46, gender Male, procedure `"knee surgery"`,
location `"Pune"` (title-cased; Pune is a known city, though not a metro
city), and a 3-month policy duration; the decision engine computes
`duration_days = 90`, approves with base amount 150000 (age > 45), and no
metro, senior, or young-adult adjustment applies, so the final amount
is 150000. -/
theorem c8_pipeline_amended :
    extract_entities "46M, knee surgery, Pune, 3-month policy" =
      { age := some 46, gender := some "Male", procedure := some "knee surgery"
        location := some "Pune", policy_duration := some ⟨3, "month"⟩ } ∧
    durationDaysOf (extract_entities "46M, knee surgery, Pune, 3-month policy") = 90 ∧
    (make_decision (extract_entities "46M, knee surgery, Pune, 3-month policy")
        []).decision = "Approved" ∧
    (make_decision (extract_entities "46M, knee surgery, Pune, 3-month policy")
        []).amount = some 150000 ∧
    metroCond (some "Pune") = false ∧
    seniorCond (some 46) = false ∧
    youngCond (some 46) = false := by
  refine ⟨by decide, by decide, by decide, by decide, by decide, by decide, by decide⟩

/-! ## Claim C9 — amount present iff Approved -/

theorem branchOutcome_spec (e : Entities) (st : List String) (b : BranchOut)
    (hb : branchOutcome e st = .ok b) :
    (b.decision = "Rejected" ∧ b.amount = none) ∨
    (b.decision = "Approved" ∧ ∃ n, b.amount = some n ∧
      (n = 150000 ∨ n = 120000 ∨ n = 500000 ∨ n = 1000000 ∨ n = 60000)) := by
  unfold branchOutcome at hb
  dsimp only at hb
  repeat' split at hb
  all_goals first
    | (rw [Except.ok.injEq] at hb
       subst hb
       first
        | exact Or.inl ⟨rfl, rfl⟩
        | exact Or.inr ⟨rfl, _, rfl, by simp⟩)
    | exact absurd hb (by simp)

theorem base_adjust_pos (age : Option ℕ) (loc : Option String) (n : ℕ)
    (hn : n = 150000 ∨ n = 120000 ∨ n = 500000 ∨ n = 1000000 ∨ n = 60000) :
    0 < ageAdjustAmount age (metroAdjustAmount loc n) := by
  unfold ageAdjustAmount metroAdjustAmount
  rcases hn with h | h | h | h | h <;> subst h <;> split_ifs <;> decide

/-- Claim C9: for every input, the result of `make_decision` satisfies:
amount is `None` iff decision is `Rejected`; and every Approved result
carries a positive amount. -/
theorem c9_amount_decision (e : Entities) (cl : List SourceClause) :
    ((make_decision e cl).decision = "Rejected" ↔ (make_decision e cl).amount = none) ∧
    ((make_decision e cl).decision = "Approved" →
      ∃ n, (make_decision e cl).amount = some n ∧ 0 < n) := by
  by_cases hgate : ageTruthy e.age ∧ (e.age.getD 0 < 18 ∨ 70 < e.age.getD 0)
  · have hres : make_decision e cl =
        { decision := "Rejected", amount := none
          justification := "Age " ++ toString (e.age.getD 0)
            ++ " is outside the eligible range (18-70 years)"
          confidence := 0.95, source_clauses := []
          reasoning_steps := steps1Of e ++ ["Age validation failed"] } := by
      unfold make_decision makeDecisionCore
      rw [if_pos hgate]
    rw [hres]
    exact ⟨by simp, by simp⟩
  · by_cases hproc : procLowerOf e = ""
    · have hres : make_decision e cl =
          { decision := "Rejected", amount := none
            justification := "No medical procedure identified in the query"
            confidence := 0.8, source_clauses := []
            reasoning_steps := steps1Of e ++ ["No procedure identified"] } := by
        unfold make_decision makeDecisionCore
        rw [if_neg hgate, if_pos hproc]
      rw [hres]
      exact ⟨by simp, by simp⟩
    · cases hcore : branchOutcome e (steps1Of e) with
      | error m =>
        rw [make_decision_error e cl hgate hproc m hcore]
        exact ⟨by simp [errorFallback], by simp [errorFallback]⟩
      | ok b =>
        obtain ⟨hd, ha, -⟩ := make_decision_proj e cl hgate hproc b hcore
        rcases branchOutcome_spec e _ b hcore with ⟨hbd, hbn⟩ | ⟨hbd, n, hbn, hvals⟩
        · rw [hd, hbd, ha, adjustSection_amount, hbn]
          rw [if_neg (by rintro ⟨h, -⟩; rw [hbd] at h; exact absurd h (by decide))]
          refine ⟨by simp, ?_⟩
          intro h
          exact absurd h (by decide)
        · have htr : amountTruthy b.amount = true := by
            rw [hbn]
            simp only [amountTruthy, bne_iff_ne, ne_eq]
            omega
          rw [hd, hbd, ha, adjustSection_amount, if_pos ⟨hbd, htr⟩, hbn]
          refine ⟨iff_of_false (by decide) (by simp), ?_⟩
          intro _
          exact ⟨_, rfl, base_adjust_pos e.age e.location n hvals⟩

/-- Witness for `c9_amount_decision` at a record the engine approves
(heart surgery, age 40): the equivalence holds and the amount is positive. -/
theorem c9_amount_decision_witness :
    (((make_decision ⟨some 40, none, some "heart surgery", none, none⟩ []).decision
        = "Rejected" ↔
      (make_decision ⟨some 40, none, some "heart surgery", none, none⟩ []).amount
        = none) ∧
     ∃ n, (make_decision ⟨some 40, none, some "heart surgery", none, none⟩ []).amount
        = some n ∧ 0 < n) :=
  ⟨(c9_amount_decision _ []).1, (c9_amount_decision _ []).2 (by decide)⟩

/-! ## Chunker lemmas -/

theorem pyStripList_length_le (l : List Char) : (pyStripList l).length ≤ l.length := by
  unfold pyStripList
  have h1 : ((l.dropWhile isPySpace).reverse.dropWhile isPySpace).length
      ≤ (l.dropWhile isPySpace).reverse.length := (List.dropWhile_sublist _).length_le
  have h2 : (l.dropWhile isPySpace).length ≤ l.length := (List.dropWhile_sublist _).length_le
  simp only [List.length_reverse] at *
  omega

theorem sliceList_length_le (l : List Char) (a b : ℕ) :
    (sliceList l a b).length ≤ b - a := by
  unfold sliceList
  simp [List.length_take]

theorem scanBack_le (text : List Char) :
    ∀ n i j, scanBack text i n = some j → j ≤ i + 1 := by
  intro n
  induction n with
  | zero => intro i j h; cases h
  | succ n ih =>
    intro i j h
    unfold scanBack at h
    split at h
    · rw [Option.some.injEq] at h
      omega
    · have := ih (i - 1) j h
      omega

theorem findEnd_le (text : List Char) (start csize : ℕ) :
    findEnd text start csize ≤ start + csize + 1 := by
  unfold findEnd
  by_cases h : start + csize < text.length
  · rw [if_pos h]
    rcases hs : scanBack text (start + csize)
        (start + csize - max (start + csize / 2) (start + csize - 100)) with - | j
    · simp
    · have := scanBack_le text _ _ _ hs
      simpa using this
  · rw [if_neg h]
    omega

theorem chunkLoop_invariant (csize ov : ℕ) (text : List Char) :
    ∀ (fuel start : ℕ) (chunks : List (List Char)),
      (∀ c ∈ chunks, 50 < c.length ∧ c.length ≤ csize + 1) → chunks.length ≤ 40 →
      (∀ c ∈ chunkLoop csize ov text fuel start chunks,
          50 < c.length ∧ c.length ≤ csize + 1) ∧
      (chunkLoop csize ov text fuel start chunks).length ≤ 40 := by
  intro fuel
  induction fuel with
  | zero => intro start chunks h1 h2; exact ⟨h1, h2⟩
  | succ fuel ih =>
    intro start chunks h1 h2
    simp only [chunkLoop]
    by_cases hc : start < text.length ∧ chunks.length < 40
    · rw [if_pos hc]
      have hlen : (pyStripList (sliceList text start (findEnd text start csize))).length
          ≤ csize + 1 := by
        have ha := pyStripList_length_le (sliceList text start (findEnd text start csize))
        have hb := sliceList_length_le text start (findEnd text start csize)
        have hc2 := findEnd_le text start csize
        omega
      set ch := pyStripList (sliceList text start (findEnd text start csize)) with hch
      set s2 := if ov < findEnd text start csize
          then findEnd text start csize - ov else findEnd text start csize with hs2
      by_cases hkeep : ch ≠ [] ∧ 50 < ch.length
      · rw [if_pos hkeep]
        have h1' : ∀ c ∈ chunks ++ [ch], 50 < c.length ∧ c.length ≤ csize + 1 := by
          intro c hcmem
          rcases List.mem_append.mp hcmem with hmem | hmem
          · exact h1 c hmem
          · rcases List.mem_singleton.mp hmem with rfl
            exact ⟨hkeep.2, hlen⟩
        have h2' : (chunks ++ [ch]).length ≤ 40 := by
          simp only [List.length_append, List.length_singleton]
          omega
        by_cases hbr : text.length ≤ s2
        · rw [if_pos hbr]
          exact ⟨h1', h2'⟩
        · rw [if_neg hbr]
          exact ih s2 (chunks ++ [ch]) h1' h2'
      · rw [if_neg hkeep]
        by_cases hbr : text.length ≤ s2
        · rw [if_pos hbr]
          exact ⟨h1, h2⟩
        · rw [if_neg hbr]
          exact ih s2 chunks h1 h2
    · rw [if_neg hc]
      exact ⟨h1, h2⟩

theorem split_text_invariant (csize ov : ℕ) (text : List Char) :
    (∀ c ∈ split_text_optimized csize ov text,
        50 < c.length ∧ c.length ≤ csize + 1) ∧
    (split_text_optimized csize ov text).length ≤ 40 := by
  unfold split_text_optimized
  split
  · exact ⟨fun c hc => absurd hc (by simp), by simp⟩
  · exact chunkLoop_invariant csize ov (preprocessText text)
      ((preprocessText text).length + 1) 0 [] (fun c hc => absurd hc (by simp)) (by simp)

theorem scanBack_eq_none (text : List Char) :
    ∀ n i, n ≤ i + 1 →
      (∀ j, i + 1 - n ≤ j → j ≤ i → isTermChar (text.getD j ' ') = false) →
      scanBack text i n = none := by
  intro n
  induction n with
  | zero => intro i _ _; rfl
  | succ n ih =>
    intro i hn h
    unfold scanBack
    rw [if_neg (by rw [h i (by omega) (le_refl i)]; simp)]
    exact ih (i - 1) (by omega) (fun j hj1 hj2 => h j (by omega) (by omega))

theorem scanBack_eq_some (text : List Char) :
    ∀ n i iT, i - iT < n → iT ≤ i →
      isTermChar (text.getD iT ' ') = true →
      (∀ j, iT < j → j ≤ i → isTermChar (text.getD j ' ') = false) →
      scanBack text i n = some (iT + 1) := by
  intro n
  induction n with
  | zero => intro i iT hstep _ _ _; omega
  | succ n ih =>
    intro i iT hstep hle hterm habove
    unfold scanBack
    by_cases hi : iT = i
    · subst hi
      rw [if_pos hterm]
    · rw [if_neg (by rw [habove i (by omega) (le_refl i)]; simp)]
      exact ih (i - 1) iT (by omega) (by omega) hterm
        (fun j hj1 hj2 => habove j hj1 (by omega))

/-! ## Claim C6 — chunk size, minimum length and cap -/

set_option maxRecDepth 100000 in
/-- Claim C6, counterexample: with the source defaults (chunk size 600,
overlap 100), the text of 600 `a`, one period and 10 `b` produces a first
chunk of trimmed length 601 — the backward boundary search starts at index
`end` itself, so the snapped chunk exceeds `chunk_size` by one. -/
theorem c6_oversize_counterexample :
    (split_text_optimized 600 100
        (List.replicate 600 'a' ++ ['.'] ++ List.replicate 10 'b')).map List.length
      = [601, 110] ∧ 600 < 601 := by
  refine ⟨by decide, by decide⟩

/-- Claim C6, amended: every chunk returned by `split_text_optimized` has
trimmed length strictly greater than 50 and at most `chunk_size + 1` (the
boundary snap can add one character past the naive boundary), and the number
of returned chunks never exceeds 40. -/
theorem c6_chunk_invariants_amended (csize ov : ℕ) (text : List Char) :
    (∀ c ∈ split_text_optimized csize ov text,
        50 < c.length ∧ c.length ≤ csize + 1) ∧
    (split_text_optimized csize ov text).length ≤ 40 :=
  split_text_invariant csize ov text

/-- Witness for `c6_chunk_invariants_amended` on a 52-character text,
returned as a single chunk. -/
theorem c6_chunk_invariants_witness :
    (50 < (List.replicate 51 'a' ++ ['.']).length ∧
      (List.replicate 51 'a' ++ ['.']).length ≤ 600 + 1) ∧
    (split_text_optimized 600 100 (List.replicate 51 'a' ++ ['.'])).length ≤ 40 :=
  ⟨(c6_chunk_invariants_amended 600 100 (List.replicate 51 'a' ++ ['.'])).1
      (List.replicate 51 'a' ++ ['.']) (by decide),
   (c6_chunk_invariants_amended 600 100 (List.replicate 51 'a' ++ ['.'])).2⟩

/-! ## Claim C7 — the backward boundary search -/

set_option maxRecDepth 100000 in
/-- Claim C7, counterexample: with chunk size 600 the code searches backward
only 100 characters (`max(start + chunk_size // 2, end - 100)`), not down to
half the chunk size as the claim states: for 400 `a`, a period, and 250 `a`,
the period at index 400 lies in the claimed range but not the code's, so the
code keeps the naive boundary 600 while the claimed search returns 401. -/
theorem c7_range_counterexample :
    findEnd (List.replicate 400 'a' ++ ['.'] ++ List.replicate 250 'a') 0 600 = 600 ∧
    findEndClaimed (List.replicate 400 'a' ++ ['.'] ++ List.replicate 250 'a') 0 600
      = 401 ∧ (600 : ℕ) ≠ 401 := by
  refine ⟨by decide, by decide, by decide⟩

/-- Claim C7, amended: when the naive boundary `start + chunk_size` is not at
end-of-text, the splitter searches backward from the naive boundary
(inclusive) down to `max(start + chunk_size / 2, start + chunk_size - 100)`
(exclusive) — that is, at most 100 characters and never below half the chunk
size — and snaps the boundary to just after the nearest sentence terminator
found there, keeping the naive boundary when none lies in that range. -/
theorem c7_boundary_search_amended (text : List Char) (start csize : ℕ)
    (hlen : start + csize < text.length) :
    ((∀ i, i < start + csize + 1 →
        max (start + csize / 2) (start + csize - 100) < i →
        isTermChar (text.getD i ' ') = false) →
      findEnd text start csize = start + csize) ∧
    (∀ iT, iT < start + csize + 1 →
      max (start + csize / 2) (start + csize - 100) < iT →
      isTermChar (text.getD iT ' ') = true →
      (∀ j, j < start + csize + 1 → iT < j → isTermChar (text.getD j ' ') = false) →
      findEnd text start csize = iT + 1) := by
  have hmaxle : max (start + csize / 2) (start + csize - 100) ≤ start + csize := by
    have : start + csize / 2 ≤ start + csize := by omega
    have : start + csize - 100 ≤ start + csize := by omega
    omega
  constructor
  · intro h
    unfold findEnd
    rw [if_pos hlen]
    rw [scanBack_eq_none text _ _ (by omega)
      (fun j hj1 hj2 => h j (by omega) (by omega))]
  · intro iT h1 h2 hterm habove
    unfold findEnd
    rw [if_pos hlen]
    rw [scanBack_eq_some text _ _ iT (by omega) (by omega) hterm
      (fun j hj1 hj2 => habove j (by omega) hj1)]

/-- Witness for `c7_boundary_search_amended`: a period at index 7 of a
12-character text with chunk size 10 snaps the boundary to 8. -/
theorem c7_boundary_search_witness :
    findEnd (List.replicate 7 'a' ++ ['.'] ++ List.replicate 4 'a') 0 10 = 7 + 1 :=
  (c7_boundary_search_amended
      (List.replicate 7 'a' ++ ['.'] ++ List.replicate 4 'a') 0 10 (by decide)).2
    7 (by decide) (by decide) (by decide) (by decide)

/-! ## Claim C10 — the 50-character thresholds -/

/-- Claim C10: `split_text_optimized` returns the empty list (without
raising) for every input whose trimmed length is below 50 — in particular
the empty text — and every returned chunk has trimmed length strictly
greater than 50, so a candidate chunk of trimmed length exactly 50 is
discarded. -/
theorem c10_min_length (csize ov : ℕ) (text : List Char) :
    ((pyStripList text).length < 50 → split_text_optimized csize ov text = []) ∧
    (∀ c ∈ split_text_optimized csize ov text, 50 < c.length) := by
  constructor
  · intro h
    unfold split_text_optimized
    rw [if_pos (Or.inr h)]
  · intro c hc
    exact ((split_text_invariant csize ov text).1 c hc).1

/-- Witness for `c10_min_length`: the two-character text `"hi"` yields no
chunks, and a 51-character candidate that strips to exactly 50 characters is
discarded, yielding no chunks either. -/
theorem c10_min_length_witness :
    split_text_optimized 600 100 "hi".toList = [] ∧
    split_text_optimized 600 100 (List.replicate 50 'a' ++ [' ']) = [] ∧
    (pyStripList (List.replicate 50 'a' ++ [' '])).length = 50 :=
  ⟨(c10_min_length 600 100 "hi".toList).1 (by decide), by decide, by decide⟩

end InsuranceSystem
